import Mathlib

/-!
Verification of the OpenStack single-network launcher
(ferry/fabric/openstack/singlelauncher.py).

This file gives a shallow embedding of the launcher's plan builders, the
provisioning driver, the network reconciler, the cluster allocator and the
teardown driver, together with theorems settling the frozen claims about
them.  The remote Heat and Neutron services are modelled as explicit
environments holding the responses the code would observe; Python
exceptions are modelled with an explicit error type, and the unbounded
poll loop is modelled over the finite trace of observed fetch results
(an exhausted trace means the Python loop is still polling).
-/

namespace Ferry

/-- Python runtime errors that the embedded code can raise. -/
inductive PyErr where
  | nameError (n : String)
  | attributeError (n : String)
  | indexError
  deriving Repr, DecidableEq

/-- JSON-like values appearing in Heat plan dictionaries. -/
inductive Val where
  | s (v : String)
  | n (v : Nat)
  | arr (xs : List Val)
  | obj (fields : List (String × Val))

/-- Launcher configuration read at initialization time (conf file + env). -/
structure Config where
  ssh_key : String
  default_zone : String
  manage_network : String
  external_network : String
  default_image : String
  default_personality : String
  deriving Repr, DecidableEq

/-- One entry of a stack description side-table.  Python stores these as
string-keyed dicts; the fields that the launcher ever reads or writes are
modelled as optional fields (absent key = `none`). -/
structure DescEntry where
  type : String := ""
  ports : List String := []
  volumes : List String := []
  role : Option String := none
  id : Option String := none
  subnet : Option String := none
  ip_address : Option String := none
  floating_ip : Option String := none
  deriving Repr, DecidableEq

/-- Description side-tables and plan resource maps are Python dicts;
modelled as association lists with last-write-wins update. -/
abbrev Desc := List (String × DescEntry)

/-- Python membership test k in d. -/
def dictHasKey {α : Type} : List (String × α) → String → Bool
  | [], _ => false
  | q :: d, k => if q.1 = k then true else dictHasKey d k

/-- Python d.get(k) / d[k] lookup. -/
def dictLookup {α : Type} : List (String × α) → String → Option α
  | [], _ => none
  | q :: d, k => if q.1 = k then some q.2 else dictLookup d k

/-- Python dict assignment d[k] = v: replace the binding if the key is
present, otherwise append it. -/
def dictInsert {α : Type} (d : List (String × α)) (k : String) (v : α) :
    List (String × α) :=
  if dictHasKey d k then
    d.map (fun q => if q.1 = k then (q.1, v) else q)
  else d ++ [(k, v)]

/-- Python dict(a.items() + b.items()): key-union where bindings of b win. -/
def dictUnion {α : Type} (a b : List (String × α)) : List (String × α) :=
  b.foldl (fun d q => dictInsert d q.1 q.2) a

/-- Python d[k] = f(d[k]) on an existing key: update every binding of k. -/
def updKey {α : Type} (d : List (String × α)) (k : String) (f : α → α) :
    List (String × α) :=
  d.map (fun q => if q.1 = k then (q.1, f q.2) else q)

/-- Python str.split(sep) for a one-character separator, on the character
list of the string. -/
def splitChar (sep : Char) : List Char → List (List Char)
  | [] => [[]]
  | c :: cs =>
      let r := splitChar sep cs
      if c = sep then [] :: r
      else
        match r with
        | [] => [[c]]
        | g :: gs => (c :: g) :: gs

/-- Python str.split(sep) for a one-character separator. -/
def pySplit (s : String) (sep : Char) : List String :=
  (splitChar sep s.data).map (fun g => String.mk g)

/-- Python str.upper(). -/
def pyUpper (s : String) : String := String.mk (s.data.map Char.toUpper)

/-- Heat template envelope: version, description, Resources, Outputs. -/
structure StackPlan where
  format_version : String := "2010-09-09"
  description : String := "Ferry generated Heat plan"
  resources : List (String × Val) := []
  outputs : List (String × Val) := []

/-- Source method _create_floating_ip: a floating-IP resource plus the
association binding it to the supplied port, and its description entry. -/
def _create_floating_ip (cfg : Config) (name port : String) :
    List (String × Val) × DescEntry :=
  ([(name, .obj [("Type", .s "OS::Neutron::FloatingIP"),
                 ("Properties", .obj [("floating_network_id", .s cfg.external_network)])]),
    (name ++ "_assoc",
      .obj [("Type", .s "OS::Neutron::FloatingIPAssociation"),
            ("Properties", .obj [("floatingip_id", .obj [("Ref", .s name)]),
                                 ("port_id", .obj [("Ref", .s port)])])])],
   { type := "OS::Neutron::FloatingIP" })

/-- Source method _create_security_group: baseline ICMP and TCP/22 rules
plus one TCP range rule per supplied (min_port, max_port) pair. -/
def _create_security_group (group_name : String) (ports : List (String × String)) :
    List (String × Val) :=
  let baseRules : List Val :=
    [.obj [("protocol", .s "icmp"), ("remote_ip_prefix", .s "0.0.0.0/0")],
     .obj [("protocol", .s "tcp"), ("remote_ip_prefix", .s "0.0.0.0/0"),
           ("port_range_min", .n 22), ("port_range_max", .n 22)]]
  let rules := baseRules ++ ports.map (fun p =>
    .obj [("protocol", .s "tcp"),
          ("port_range_min", .s p.1), ("port_range_max", .s p.2)])
  [(group_name,
    .obj [("Type", .s "OS::Neutron::SecurityGroup"),
          ("Properties", .obj [("name", .s group_name),
                               ("description", .s "Ferry firewall rules"),
                               ("rules", .arr rules)])])]

/-- Source method _create_port: a Neutron port scoped to a security group;
the ref flag selects symbolic reference versus literal network id. -/
def _create_port (name network sec_group : String) (ref : Bool) :
    List (String × Val) :=
  let props : List (String × Val) :=
    [("name", .s name),
     ("security_groups", .arr [.obj [("Ref", .s sec_group)]])]
  let props :=
    if ref then dictInsert props "network" (.obj [("Ref", .s network)])
    else dictInsert props "network" (.s network)
  [(name, .obj [("Type", .s "OS::Neutron::Port"), ("Properties", .obj props)])]

/-- Source method _create_server_init: the boot script user_data value.
The networks argument is accepted and ignored, exactly as in the source. -/
def _create_server_init (instance_name : String) (networks : Val) : Val :=
  .obj [("Fn::Base64",
    .obj [("Fn::Join",
      .arr [.s "",
        .arr [.s "#!/bin/bash -v\n",
              .s "umount /mnt\n",
              .s "parted --script /dev/vdb mklabel gpt\n",
              .s "parted --script /dev/vdb mkpart primary xfs 0% 100%\n",
              .s "mkfs.xfs /dev/vdb1\n",
              .s "mkdir /ferry/data\n",
              .s "mkdir /ferry/keys\n",
              .s "mount -o noatime /dev/vdb1 /ferry/data\n",
              .s "export FERRY_SCRATCH=/ferry/data\n",
              .s "export FERRY_DIR=/ferry/master\n",
              .s "export HOME=/root\n",
              .s "export USER=root\n",
              .s "mkdir /home/ferry/.ssh\n",
              .s "cp /home/ubuntu/.ssh/authorized_keys /home/ferry/.ssh/\n",
              .s "chown -R ferry:ferry /home/ferry/.ssh\n",
              .s "dhclient eth1\n",
              .s "ferry server\n"]])])]

/-- Update a field of a Val object in place (helper for nested Python dict
assignment plan[name]["Properties"]["user_data"] = user_data). -/
def objUpd (v : Val) (k : String) (g : Val → Val) : Val :=
  match v with
  | .obj fs => .obj (fs.map (fun q => if q.1 = k then (q.1, g q.2) else q))
  | x => x

/-- Set a key of a Val object (insert-or-replace). -/
def objSet (v : Val) (k : String) (x : Val) : Val :=
  match v with
  | .obj fs => .obj (dictInsert fs k x)
  | x => x

/-- Source method _create_instance: one Nova server with exactly one
management-network port.  After combining the port fragments, the source
evaluates the call _create_server_init(name, data_networks) in which
data_networks is an undefined name, so the method raises NameError before
attaching the user_data. -/
def _create_instance (cfg : Config) (name image size manage_network sec_group : String) :
    Except PyErr (List (String × Val) × Desc) := do
  let port_name := "ferry-port-" ++ name
  let plan : List (String × Val) :=
    [(name, .obj [("Type", .s "OS::Nova::Server"),
                  ("Properties", .obj
                    [("name", .s name),
                     ("image", .s image),
                     ("key_name", .s cfg.ssh_key),
                     ("flavor", .s size),
                     ("availability_zone", .s cfg.default_zone),
                     ("networks", .arr [.obj [("port", .obj [("Ref", .s port_name)]),
                                              ("network", .s manage_network)]])])])]
  let desc : Desc :=
    [(name, { type := "OS::Nova::Server", ports := [port_name], volumes := [] }),
     (port_name, { type := "OS::Neutron::Port", role := some "manage" })]
  let port_descs := [_create_port port_name manage_network sec_group false]
  let plan := port_descs.foldl (fun pl d => dictUnion pl d) plan
  let networks ← (Except.error (PyErr.nameError "data_networks") : Except PyErr Val)
  let user_data := _create_server_init name networks
  let plan := updKey plan name (fun v =>
    objUpd v "Properties" (fun pr => objSet pr "user_data" user_data))
  return (plan, desc)

/-- Source method _create_floatingip_plan: one floating IP per interface,
named ferry-ip-(cluster_uuid)-(i). -/
def _create_floatingip_plan (cfg : Config) (cluster_uuid : String)
    (ifaces : List String) : StackPlan × Desc :=
  ifaces.enum.foldl
    (fun acc q =>
      let ip_name := "ferry-ip-" ++ cluster_uuid ++ "-" ++ toString q.1
      let pr := _create_floating_ip cfg ip_name q.2
      ({ acc.1 with resources := dictUnion acc.1.resources pr.1 },
       dictInsert acc.2 ip_name pr.2))
    ({ resources := [], outputs := [] }, [])

/-- Source method _create_security_plan: a stack holding one security
group named ferry-sec-(cluster_uuid). -/
def _create_security_plan (cluster_uuid : String) (ports : List (String × String)) :
    StackPlan × Desc :=
  let sec_group_name := "ferry-sec-" ++ cluster_uuid
  ({ resources := _create_security_group sec_group_name ports },
   [(sec_group_name, { type := "OS::Neutron::SecurityGroup" })])

/-- Source method _create_instance_plan: one instance (and its management
port) per index below num_instances, merged by dict union.  Every call of
_create_instance raises NameError, so the plan is only returned for
num_instances = 0. -/
def _create_instance_plan (cfg : Config) (cluster_uuid : String)
    (num_instances : Nat) (image size sec_group_name ctype : String) :
    Except PyErr (StackPlan × Desc) := do
  let mut plan : StackPlan := { resources := [], outputs := [] }
  let mut desc : Desc := []
  for i in List.range num_instances do
    let instance_name :=
      "ferry-instance-" ++ cluster_uuid ++ "-" ++ ctype ++ "-" ++ toString i
    let pr ← _create_instance cfg instance_name image size cfg.manage_network sec_group_name
    plan := { plan with resources := dictUnion plan.resources pr.1 }
    desc := dictUnion desc pr.2
  return (plan, desc)

/-- One observed outcome of a heat.stacks.get call inside the poll loop:
either the fetch raised HTTPUnauthorized, or it returned a stack whose
status field is the given string. -/
inductive Fetch where
  | authError
  | status (s : String)
  deriving Repr, DecidableEq

/-- One record of heat.resources.list(stack_id), as returned to
_collect_resources. -/
structure ResourceRec where
  logical_resource_id : String
  physical_resource_id : String
  resource_type : String
  deriving Repr, DecidableEq

/-- Responses of the Heat service for one stack: the id returned by
stacks.create, the successive outcomes of stacks.get, and the resource
listing. -/
structure HeatEnv where
  stack_id : String
  fetches : List Fetch
  resources : List ResourceRec
  deriving Repr, DecidableEq

/-- Source method _wait_for_stack: poll until the status is COMPLETE
(return true) or FAILED (return false); any other status sleeps and
retries, and HTTPUnauthorized is logged and retried.  Each loop iteration
consumes one element of the observed fetch trace; the unread remainder of
the trace is returned with the result.  An exhausted trace (`none`) means
the Python loop is still polling. -/
def _wait_for_stack : List Fetch → Option (Bool × List Fetch)
  | [] => none
  | Fetch.authError :: rest => _wait_for_stack rest
  | Fetch.status s :: rest =>
      if s = "COMPLETE" then some (true, rest)
      else if s = "FAILED" then some (false, rest)
      else _wait_for_stack rest

/-- One step of the resource loop in _launch_heat_plan: if the logical
resource id is a key of the description, store the physical resource id
under its id field. -/
def setIdStep (d : Desc) (r : ResourceRec) : Desc :=
  if dictHasKey d r.logical_resource_id then
    updKey d r.logical_resource_id
      (fun e => { e with id := some r.physical_resource_id })
  else d

/-- Source method _launch_heat_plan: submit the stack and wait; on FAILED
log and return None (modelled some none); on COMPLETE write each realized
resource's physical id into the description and record the stack's own id
under the stack name.  The outer `none` marks a poll loop that never
returns. -/
def _launch_heat_plan (stack_name : String) (heat_plan : StackPlan)
    (stack_desc : Desc) (env : HeatEnv) : Option (Option Desc) :=
  match _wait_for_stack env.fetches with
  | none => none
  | some (false, _) => some none
  | some (true, _) =>
      let stack_desc := env.resources.foldl setIdStep stack_desc
      some (some (dictInsert stack_desc stack_name
        { type := "OS::Heat::Stack", id := some env.stack_id }))

/-- One subnet record of neutron.list_subnets(). -/
structure SubnetRec where
  id : String
  cidr : String
  gateway : String
  deriving Repr, DecidableEq

/-- The launcher's stored subnet value self.subnet (fields absent = None). -/
structure SubnetInfo where
  id : Option String
  cidr : Option String
  gateway : Option String
  deriving Repr, DecidableEq

/-- Source method _collect_subnet_info: the loop over the subnet listing
only logs each subnet; the stored value is then set to the dict with id,
cidr and gateway all None, whatever the listing contained. -/
def _collect_subnet_info (subnets : List SubnetRec) : SubnetInfo :=
  { id := none, cidr := none, gateway := none }

/-- One floating-IP record of neutron.list_floatingips(); a falsy
fixed_ip_address (absent or empty) means the IP is not bound to a port. -/
structure FloatingIpRec where
  fixed_ip_address : Option String
  floating_ip_address : String
  deriving Repr, DecidableEq

/-- One fixed-ip sub-record of a Neutron port. -/
structure FixedIp where
  subnet_id : String
  ip_address : String
  deriving Repr, DecidableEq

/-- One port record of neutron.list_ports(). -/
structure PortRec where
  name : String
  fixed_ips : List FixedIp
  deriving Repr, DecidableEq

/-- Responses of the Neutron service consumed by _collect_network_info. -/
structure NeutronEnv where
  floatingips : List FloatingIpRec
  ports : List PortRec
  deriving Repr, DecidableEq

/-- One step of the floating-IP loop of _collect_network_info: a floating
IP with a truthy (present and non-empty) fixed address maps that fixed
address to its floating address. -/
def ipMapStep (m : List (String × String)) (f : FloatingIpRec) :
    List (String × String) :=
  match f.fixed_ip_address with
  | some a => if a = "" then m else dictInsert m a f.floating_ip_address
  | none => m

/-- First phase of _collect_network_info: the map from fixed (private)
address to floating address, over floating IPs whose fixed_ip_address is
truthy. -/
def build_ip_map (floatingips : List FloatingIpRec) : List (String × String) :=
  floatingips.foldl ipMapStep []

/-- The update _collect_network_info applies to the description entry of a
matched port: write subnet and private IP from the port's first fixed ip,
and the floating address when the private IP is a key of the ip map. -/
def portUpdate (e : DescEntry) (f : FixedIp) (m : List (String × String)) :
    DescEntry :=
  let e := { e with subnet := some f.subnet_id, ip_address := some f.ip_address }
  match dictLookup m f.ip_address with
  | some fl => { e with floating_ip := some fl }
  | none => e

/-- Second phase of _collect_network_info, one port at a time: a port with
a non-empty name that is a key of the description has its entry updated
from the port's first fixed ip (p.fixed_ips[0] raises IndexError when the
port has no fixed ips). -/
def collectPorts (m : List (String × String)) :
    List PortRec → Desc → Except PyErr Desc
  | [], desc => .ok desc
  | p :: ps, desc =>
      if (p.name ≠ "") ∧ dictHasKey desc p.name then
        match p.fixed_ips with
        | [] => .error .indexError
        | f :: _ => collectPorts m ps (updKey desc p.name (fun e => portUpdate e f m))
      else collectPorts m ps desc

/-- Source method _collect_network_info: build the floating-IP map, then
enrich the description entry of every listed port whose name is a key of
the description. -/
def _collect_network_info (env : NeutronEnv) (stack_desc : Desc) :
    Except PyErr Desc :=
  collectPorts (build_ip_map env.floatingips) env.ports stack_desc

/-- One requested workload container, with its port-mapping list (used for
ctype connector) and its declared exposed-port list (used otherwise). -/
structure ContainerInfo where
  ports : List String
  exposed : List String
  deriving Repr, DecidableEq

/-- Per-entry security rule of alloc's connector branch: split the port
mapping on the colon; with an explicit host:container split the second
component is used for both ends of the rule (the host port is ignored),
otherwise the single port is. -/
def connectorRule (p : String) : String × String :=
  match pySplit p ':' with
  | [] => ("", "")
  | [s0] => (s0, s0)
  | _ :: s1 :: _ => (s1, s1)

/-- Per-entry security rule of alloc's non-connector branch: split the
exposed port on the dash; a single port p becomes (p, p) and a range
a-b becomes (a, b). -/
def exposedRule (p : String) : String × String :=
  match pySplit p '-' with
  | [] => ("", "")
  | [s0] => (s0, s0)
  | s0 :: s1 :: _ => (s0, s1)

/-- Port-rule and floating-IP derivation at the top of alloc (the code
before the _create_app_stack call): ctype connector always requests
floating IPs and collects a rule from every port mapping of every
container; any other ctype requests floating IPs exactly when proxy is
false and collects the rules from the first container's exposed list
(container_info[0] raises IndexError when the list is empty). -/
def alloc_policy (container_info : List ContainerInfo) (ctype : String)
    (proxy : Bool) : Except PyErr (Bool × List (String × String)) :=
  if ctype = "connector" then
    Except.ok (true, container_info.flatMap (fun c => c.ports.map connectorRule))
  else
    let floating_ip := if proxy then false else true
    match container_info with
    | [] => Except.error PyErr.indexError
    | c0 :: _ => Except.ok (floating_ip, c0.exposed.map exposedRule)

/-- Result of a launcher call that performs remote I/O: a raised Python
exception, a poll loop that never returns, or a value. -/
inductive Res (α : Type) where
  | err (e : PyErr)
  | hang
  | ok (a : α)
  deriving Repr, DecidableEq

/-- Source method _create_app_stack: compose the security plan, the
instance plan and (when requested) the floating-IP plan for the management
ports, merge them, launch the merged stack and reconcile networking.  A
falsy (None or empty) description from the launch step makes the method
return None. -/
def _create_app_stack (cfg : Config) (henv : HeatEnv) (nenv : NeutronEnv)
    (cluster_uuid : String) (num_instances : Nat)
    (security_group_ports : List (String × String)) (assign_floating_ip : Bool)
    (ctype : String) : Res (Option Desc) :=
  let secPair := _create_security_plan cluster_uuid security_group_ports
  let sec_group_name :=
    match secPair.2 with
    | q :: _ => q.1
    | [] => ""
  match _create_instance_plan cfg cluster_uuid num_instances cfg.default_image
      cfg.default_personality sec_group_name ctype with
  | .error e => .err e
  | .ok sd =>
    let ipPair :=
      if assign_floating_ip then
        let ifaces := (sd.2.filter (fun q =>
          q.2.type == "OS::Neutron::Port" && q.2.role == some "manage")).map
          (fun q => q.1)
        _create_floatingip_plan cfg cluster_uuid ifaces
      else ({ resources := [], outputs := [] }, [])
    let merged := dictUnion (dictUnion secPair.1.resources ipPair.1.resources) sd.1.resources
    let stack_plan := { sd.1 with resources := merged }
    let stack_desc := dictUnion (dictUnion sd.2 secPair.2) ipPair.2
    match _launch_heat_plan ("ferry-app-" ++ pyUpper ctype ++ "-" ++ cluster_uuid)
        stack_plan stack_desc henv with
    | none => .hang
    | some none => .ok none
    | some (some d) =>
      if d.isEmpty then .ok none
      else
        match _collect_network_info nenv d with
        | .error e => .err e
        | .ok d2 => .ok (some d2)

/-- A launched workload container (alloc's loop never reaches the launcher
call, so the model never constructs one). -/
abbrev Container := ContainerInfo

/-- Source method alloc: derive the security rules and floating-IP flag,
allocate the stack, then start the containers.  With a truthy resource
description, the very first statement of the launch block evaluates
self._get_servers, an attribute the class never defines, raising
AttributeError; with a falsy description the loop is skipped and the empty
container list is returned. -/
def alloc (cfg : Config) (henv : HeatEnv) (nenv : NeutronEnv)
    (cluster_uuid : String) (container_info : List ContainerInfo)
    (ctype : String) (proxy : Bool) : Res (List Container) :=
  match alloc_policy container_info ctype proxy with
  | .error e => .err e
  | .ok pr =>
    match _create_app_stack cfg henv nenv cluster_uuid container_info.length
        pr.2 pr.1 ctype with
    | .err e => .err e
    | .hang => .hang
    | .ok none => .ok []
    | .ok (some resources) =>
      if resources.isEmpty then .ok []
      else .err (.attributeError "_get_servers")

/-- Calls that _delete_stack issues against the remote services, in
order. -/
inductive ApiCall where
  | update_floatingip (physical_id : String)
  | delete (stack_id : String)
  deriving Repr, DecidableEq

/-- Source method _delete_stack: list the stack's resources, disassociate
every floating IP (clear its port binding), then delete the stack. -/
def _delete_stack (stack_id : String) (resources : List ResourceRec) :
    List ApiCall :=
  (resources.foldl
    (fun calls r =>
      if r.resource_type == "OS::Neutron::FloatingIP" then
        calls ++ [ApiCall.update_floatingip r.physical_resource_id]
      else calls)
    []) ++ [ApiCall.delete stack_id]

/-- Modelled from the spec (for comparison with the source's connector
branch only): the published, host-facing port of a port-mapping entry,
falling back to the container-side port when the entry has no explicit
host:container split. -/
def publishedRule (p : String) : String × String :=
  match pySplit p ':' with
  | [] => ("", "")
  | [s0] => (s0, s0)
  | s0 :: _ :: _ => (s0, s0)

/-- Recognizer for the stack-delete call in a teardown trace. -/
def isDeleteCall : ApiCall → Bool
  | ApiCall.delete _ => true
  | _ => false

/-- Recognizer for a floating-IP disassociation call in a teardown trace. -/
def isUpdateCall : ApiCall → Bool
  | ApiCall.update_floatingip _ => true
  | _ => false

/-- Concrete launcher configuration used by the witnesses. -/
def cfg0 : Config :=
  { ssh_key := "ferry-keys", default_zone := "az1", manage_network := "net-manage",
    external_network := "net-ext", default_image := "img-1",
    default_personality := "m1.small" }

/-- Heat responses for a stack whose creation completes at once. -/
def henvC : HeatEnv :=
  { stack_id := "stack-1", fetches := [Fetch.status "COMPLETE"], resources := [] }

/-- Heat responses for a stack whose creation fails at once. -/
def henvF : HeatEnv :=
  { stack_id := "stack-1", fetches := [Fetch.status "FAILED"], resources := [] }

/-- Neutron responses with no floating IPs and no ports. -/
def nenv0 : NeutronEnv := { floatingips := [], ports := [] }

/-- The description _create_app_stack produces for zero instances on the
completing Heat environment henvC. -/
def descC : Desc :=
  [("ferry-sec-c", { type := "OS::Neutron::SecurityGroup" }),
   ("ferry-app-CONNECTOR-c", { type := "OS::Heat::Stack", id := some "stack-1" })]

/-- Heat responses realizing one logical resource, for the provisioning
driver witness. -/
def envW : HeatEnv :=
  { stack_id := "stack-1", fetches := [Fetch.status "COMPLETE"],
    resources := [⟨"r1", "phys-1", "OS::Nova::Server"⟩] }

/-- A description holding the logical resource realized by envW. -/
def descW : Desc := [("r1", { type := "OS::Nova::Server" })]

/-- An empty stack plan for the provisioning driver witness. -/
def planW : StackPlan := {}

/-- Neutron responses with one bound floating IP and one matching port,
for the network reconciler witness. -/
def nenvW : NeutronEnv :=
  { floatingips := [⟨some "10.0.0.5", "1.2.3.4"⟩],
    ports := [⟨"ferry-port-x", [⟨"sub-1", "10.0.0.5"⟩]⟩] }

/-- A description holding the port listed by nenvW. -/
def descP : Desc :=
  [("ferry-port-x", { type := "OS::Neutron::Port", role := some "manage" })]

section DictLemmas

variable {α : Type}

theorem updKey_cons (q : String × α) (d : List (String × α)) (k : String)
    (f : α → α) :
    updKey (q :: d) k f =
      (if q.1 = k then (q.1, f q.2) else q) :: updKey d k f := by
  by_cases hq : q.1 = k <;> simp [updKey, hq]

theorem dictInsert_eq (d : List (String × α)) (k : String) (v : α) :
    dictInsert d k v =
      if dictHasKey d k then updKey d k (fun _ => v) else d ++ [(k, v)] := rfl

theorem dictLookup_updKey_ne (d : List (String × α)) (k k' : String)
    (f : α → α) (h : k' ≠ k) :
    dictLookup (updKey d k f) k' = dictLookup d k' := by
  have hkk : k ≠ k' := fun hc => h hc.symm
  induction d with
  | nil => rfl
  | cons q d ih =>
      rw [updKey_cons]
      by_cases hq : q.1 = k
      · have hne : ¬ q.1 = k' := fun hc => hkk (hq ▸ hc)
        rw [if_pos hq, dictLookup, dictLookup, if_neg hne, if_neg hne]
        exact ih
      · by_cases hk : q.1 = k'
        · rw [if_neg hq, dictLookup, dictLookup, if_pos hk, if_pos hk]
        · rw [if_neg hq, dictLookup, dictLookup, if_neg hk, if_neg hk]
          exact ih

theorem dictLookup_updKey_self (d : List (String × α)) (k : String)
    (f : α → α) (v : α) (h : dictLookup d k = some v) :
    dictLookup (updKey d k f) k = some (f v) := by
  induction d with
  | nil => simp [dictLookup] at h
  | cons q d ih =>
      rw [updKey_cons]
      by_cases hq : q.1 = k
      · rw [dictLookup, if_pos hq] at h
        injection h with h
        rw [if_pos hq, dictLookup, if_pos hq, h]
      · rw [dictLookup, if_neg hq] at h
        rw [if_neg hq, dictLookup, if_neg hq]
        exact ih h

theorem dictHasKey_updKey (d : List (String × α)) (k k' : String) (f : α → α) :
    dictHasKey (updKey d k f) k' = dictHasKey d k' := by
  induction d with
  | nil => rfl
  | cons q d ih =>
      rw [updKey_cons]
      by_cases hq : q.1 = k
      · rw [if_pos hq, dictHasKey, dictHasKey]
        by_cases hk : q.1 = k'
        · rw [if_pos hk, if_pos hk]
        · rw [if_neg hk, if_neg hk]
          exact ih
      · rw [if_neg hq, dictHasKey, dictHasKey]
        by_cases hk : q.1 = k'
        · rw [if_pos hk, if_pos hk]
        · rw [if_neg hk, if_neg hk]
          exact ih

theorem dictHasKey_iff_lookup (d : List (String × α)) (k : String) :
    dictHasKey d k = true ↔ ∃ v, dictLookup d k = some v := by
  induction d with
  | nil => simp [dictHasKey, dictLookup]
  | cons q d ih =>
      rw [dictHasKey]
      by_cases hq : q.1 = k
      · simp [if_pos hq, dictLookup]
      · rw [if_neg hq]
        simp only [dictLookup, if_neg hq]
        exact ih

theorem dictLookup_eq_none (d : List (String × α)) (k : String)
    (h : dictHasKey d k = false) : dictLookup d k = none := by
  induction d with
  | nil => rfl
  | cons q d ih =>
      rw [dictHasKey] at h
      by_cases hq : q.1 = k
      · rw [if_pos hq] at h
        exact absurd h (by simp)
      · rw [if_neg hq] at h
        rw [dictLookup, if_neg hq]
        exact ih h

theorem dictLookup_append_left (a b : List (String × α)) (k : String)
    (h : dictHasKey a k = true) :
    dictLookup (a ++ b) k = dictLookup a k := by
  induction a with
  | nil => simp [dictHasKey] at h
  | cons q a ih =>
      rw [dictHasKey] at h
      by_cases hq : q.1 = k
      · rw [List.cons_append, dictLookup, dictLookup, if_pos hq, if_pos hq]
      · rw [if_neg hq] at h
        rw [List.cons_append, dictLookup, dictLookup, if_neg hq, if_neg hq]
        exact ih h

theorem dictLookup_append_right (a b : List (String × α)) (k : String)
    (h : dictHasKey a k = false) :
    dictLookup (a ++ b) k = dictLookup b k := by
  induction a with
  | nil => rfl
  | cons q a ih =>
      rw [dictHasKey] at h
      by_cases hq : q.1 = k
      · rw [if_pos hq] at h
        exact absurd h (by simp)
      · rw [if_neg hq] at h
        rw [List.cons_append, dictLookup, if_neg hq]
        exact ih h

theorem dictLookup_insert_self (d : List (String × α)) (k : String) (v : α) :
    dictLookup (dictInsert d k v) k = some v := by
  rw [dictInsert_eq]
  by_cases h : dictHasKey d k = true
  · rw [if_pos h]
    obtain ⟨w, hw⟩ := (dictHasKey_iff_lookup d k).mp h
    exact dictLookup_updKey_self d k (fun _ => v) w hw
  · have h' : dictHasKey d k = false := by simpa using h
    rw [if_neg (by simp [h']), dictLookup_append_right d _ k h', dictLookup]
    simp

theorem dictLookup_insert_ne (d : List (String × α)) (k k' : String) (v : α)
    (h : k' ≠ k) :
    dictLookup (dictInsert d k v) k' = dictLookup d k' := by
  rw [dictInsert_eq]
  by_cases hk : dictHasKey d k = true
  · rw [if_pos hk]
    exact dictLookup_updKey_ne d k k' _ h
  · have h' : dictHasKey d k = false := by simpa using hk
    rw [if_neg (by simp [h'])]
    by_cases hk' : dictHasKey d k' = true
    · exact dictLookup_append_left d _ k' hk'
    · have h'' : dictHasKey d k' = false := by simpa using hk'
      rw [dictLookup_append_right d _ k' h'', dictLookup, if_neg (fun hc => h hc.symm),
        dictLookup, dictLookup_eq_none d k' h'']

theorem mem_of_dictLookup (d : List (String × α)) (k : String) (v : α)
    (h : dictLookup d k = some v) : (k, v) ∈ d := by
  induction d with
  | nil => simp [dictLookup] at h
  | cons q d ih =>
      by_cases hq : q.1 = k
      · rw [dictLookup, if_pos hq] at h
        injection h with h
        cases q with
        | mk a b =>
            simp only at hq h
            subst hq
            subst h
            exact List.mem_cons_self _ _
      · rw [dictLookup, if_neg hq] at h
        exact List.mem_cons_of_mem _ (ih h)

theorem updKey_keys (d : List (String × α)) (k : String) (f : α → α) :
    (updKey d k f).map Prod.fst = d.map Prod.fst := by
  induction d with
  | nil => rfl
  | cons q d ih =>
      rw [updKey_cons]
      by_cases hq : q.1 = k
      · rw [if_pos hq, List.map_cons, List.map_cons, ih]
      · rw [if_neg hq, List.map_cons, List.map_cons, ih]

end DictLemmas

theorem setIdStep_lookup_ne (d : Desc) (r : ResourceRec) (k : String)
    (h : k ≠ r.logical_resource_id) :
    dictLookup (setIdStep d r) k = dictLookup d k := by
  unfold setIdStep
  by_cases hk : dictHasKey d r.logical_resource_id = true
  · rw [if_pos hk]
    exact dictLookup_updKey_ne d r.logical_resource_id k _ h
  · rw [if_neg (by simpa using hk)]

theorem setIdStep_lookup_self (d : Desc) (r : ResourceRec) (e : DescEntry)
    (h : dictLookup d r.logical_resource_id = some e) :
    dictLookup (setIdStep d r) r.logical_resource_id =
      some { e with id := some r.physical_resource_id } := by
  unfold setIdStep
  have hk : dictHasKey d r.logical_resource_id = true :=
    (dictHasKey_iff_lookup d r.logical_resource_id).mpr ⟨e, h⟩
  rw [if_pos hk]
  exact dictLookup_updKey_self d r.logical_resource_id _ e h

theorem foldl_setIdStep_lookup_ne (rs : List ResourceRec) (d : Desc) (k : String)
    (h : ∀ r ∈ rs, r.logical_resource_id ≠ k) :
    dictLookup (rs.foldl setIdStep d) k = dictLookup d k := by
  induction rs generalizing d with
  | nil => rfl
  | cons r rs ih =>
      rw [List.foldl_cons]
      rw [ih _ (fun g hg => h g (List.mem_cons_of_mem _ hg))]
      exact setIdStep_lookup_ne d r k
        (fun hc => h r (List.mem_cons_self _ _) hc.symm)

theorem foldl_setIdStep_lookup_mem (rs : List ResourceRec) (d : Desc)
    (hnodup : (rs.map ResourceRec.logical_resource_id).Nodup)
    (r : ResourceRec) (hr : r ∈ rs) (e : DescEntry)
    (he : dictLookup d r.logical_resource_id = some e) :
    dictLookup (rs.foldl setIdStep d) r.logical_resource_id =
      some { e with id := some r.physical_resource_id } := by
  induction rs generalizing d with
  | nil => cases hr
  | cons r0 rs ih =>
      rw [List.foldl_cons]
      have hhead : r0.logical_resource_id ∉ rs.map ResourceRec.logical_resource_id :=
        (List.nodup_cons.mp hnodup).1
      rcases List.mem_cons.mp hr with h0 | hmem
      · subst h0
        have hnot : ∀ g ∈ rs, g.logical_resource_id ≠ r.logical_resource_id := by
          intro g hg hc
          exact hhead (hc ▸ List.mem_map_of_mem ResourceRec.logical_resource_id hg)
        rw [foldl_setIdStep_lookup_ne rs _ _ hnot]
        exact setIdStep_lookup_self d r e he
      · have hne : r0.logical_resource_id ≠ r.logical_resource_id := by
          intro hc
          exact hhead (hc ▸ List.mem_map_of_mem ResourceRec.logical_resource_id hmem)
        have he' : dictLookup (setIdStep d r0) r.logical_resource_id = some e := by
          rw [setIdStep_lookup_ne d r0 _ (fun hc => hne hc.symm)]
          exact he
        exact ih _ (List.nodup_cons.mp hnodup).2 hmem he'

/-- C6: the poll loop _wait_for_stack keeps fetching while the status is
neither COMPLETE nor FAILED (including across authorization errors, which
are logged and retried); it stops at the first COMPLETE read and returns
true with the rest of the trace unread, returns false at the first FAILED
read without any further fetch, and on a trace holding no terminal status
it is still polling (no result). -/
theorem wait_for_stack_poll (pre rest : List Fetch)
    (hpre : ∀ f ∈ pre, f ≠ Fetch.status "COMPLETE" ∧ f ≠ Fetch.status "FAILED") :
    _wait_for_stack (pre ++ Fetch.status "COMPLETE" :: rest) = some (true, rest) ∧
    _wait_for_stack (pre ++ Fetch.status "FAILED" :: rest) = some (false, rest) ∧
    _wait_for_stack pre = none := by
  induction pre with
  | nil => refine ⟨?_, ?_, rfl⟩ <;> simp [_wait_for_stack]
  | cons f pre ih =>
      have hf := hpre f (List.mem_cons_self _ _)
      obtain ⟨ih1, ih2, ih3⟩ :=
        ih (fun g hg => hpre g (List.mem_cons_of_mem _ hg))
      cases f with
      | authError => simpa [_wait_for_stack] using ⟨ih1, ih2, ih3⟩
      | status s =>
          have hsC : s ≠ "COMPLETE" := fun hc => hf.1 (by rw [hc])
          have hsF : s ≠ "FAILED" := fun hc => hf.2 (by rw [hc])
          simp [_wait_for_stack, hsC, hsF, ih1, ih2, ih3]

/-- Witness for wait_for_stack_poll: an authorization error followed by an
in-progress read, then the terminal status. -/
theorem wait_for_stack_poll_witness :
    _wait_for_stack [Fetch.authError, Fetch.status "IN_PROGRESS",
      Fetch.status "COMPLETE"] = some (true, []) ∧
    _wait_for_stack [Fetch.authError, Fetch.status "IN_PROGRESS",
      Fetch.status "FAILED"] = some (false, []) ∧
    _wait_for_stack [Fetch.authError, Fetch.status "IN_PROGRESS"] = none :=
  wait_for_stack_poll [Fetch.authError, Fetch.status "IN_PROGRESS"] [] (by decide)

/-- C7: _launch_heat_plan returns null exactly when the stack reaches the
FAILED terminal state; when it reaches COMPLETE, the returned description
maps every realized resource whose logical id is a key of the input
description to an entry holding its physical resource id, and maps the
stack name to the stack's own identifier with type OS::Heat::Stack. -/
theorem launch_heat_plan_spec (stack_name : String) (heat_plan : StackPlan)
    (stack_desc : Desc) (env : HeatEnv)
    (hnodup : (env.resources.map ResourceRec.logical_resource_id).Nodup)
    (hname : ∀ r ∈ env.resources, r.logical_resource_id ≠ stack_name) :
    (_launch_heat_plan stack_name heat_plan stack_desc env = some none ↔
      (∃ rest, _wait_for_stack env.fetches = some (false, rest))) ∧
    (∀ rest, _wait_for_stack env.fetches = some (true, rest) →
      ∃ d, _launch_heat_plan stack_name heat_plan stack_desc env = some (some d) ∧
        (∀ r ∈ env.resources, ∀ e,
            dictLookup stack_desc r.logical_resource_id = some e →
            dictLookup d r.logical_resource_id =
              some { e with id := some r.physical_resource_id }) ∧
        dictLookup d stack_name =
          some { type := "OS::Heat::Stack", id := some env.stack_id }) := by
  cases hw : _wait_for_stack env.fetches with
  | none =>
      have hres : _launch_heat_plan stack_name heat_plan stack_desc env = none := by
        unfold _launch_heat_plan
        rw [hw]
      rw [hres]
      refine ⟨⟨fun hc => Option.noConfusion hc, ?_⟩, fun rest hr => ?_⟩
      · rintro ⟨rest, hr⟩
        exact Option.noConfusion hr
      · exact Option.noConfusion hr
  | some br =>
      obtain ⟨b, rest0⟩ := br
      cases b with
      | false =>
          have hres : _launch_heat_plan stack_name heat_plan stack_desc env =
              some none := by
            unfold _launch_heat_plan
            rw [hw]
          rw [hres]
          refine ⟨⟨fun _ => ⟨rest0, rfl⟩, fun _ => rfl⟩, fun rest hr => ?_⟩
          simp at hr
      | true =>
          have hres : _launch_heat_plan stack_name heat_plan stack_desc env =
              some (some (dictInsert (env.resources.foldl setIdStep stack_desc)
                stack_name { type := "OS::Heat::Stack", id := some env.stack_id })) := by
            unfold _launch_heat_plan
            rw [hw]
          rw [hres]
          constructor
          · constructor
            · intro hc
              simp at hc
            · rintro ⟨rest, hr⟩
              simp at hr
          · intro rest hr
            refine ⟨_, rfl, fun r hr' e he => ?_, ?_⟩
            · rw [dictLookup_insert_ne _ _ _ _ (hname r hr')]
              exact foldl_setIdStep_lookup_mem env.resources stack_desc hnodup r hr' e he
            · exact dictLookup_insert_self _ _ _

/-- Witness for launch_heat_plan_spec: one realized resource and a
completing stack. -/
theorem launch_heat_plan_spec_witness :
    (_launch_heat_plan "ferry-app-W" planW descW envW = some none ↔
      (∃ rest, _wait_for_stack envW.fetches = some (false, rest))) ∧
    (∀ rest, _wait_for_stack envW.fetches = some (true, rest) →
      ∃ d, _launch_heat_plan "ferry-app-W" planW descW envW = some (some d) ∧
        (∀ r ∈ envW.resources, ∀ e,
            dictLookup descW r.logical_resource_id = some e →
            dictLookup d r.logical_resource_id =
              some { e with id := some r.physical_resource_id }) ∧
        dictLookup d "ferry-app-W" =
          some { type := "OS::Heat::Stack", id := some envW.stack_id }) :=
  launch_heat_plan_spec "ferry-app-W" planW descW envW (by decide) (by decide)

theorem collectPorts_ok (m : List (String × String)) (ps : List PortRec)
    (desc : Desc) (hfixed : ∀ p ∈ ps, p.fixed_ips ≠ []) :
    ∃ d, collectPorts m ps desc = Except.ok d := by
  induction ps generalizing desc with
  | nil => exact ⟨desc, rfl⟩
  | cons p ps ih =>
      simp only [collectPorts]
      by_cases hc : (p.name ≠ "") ∧ dictHasKey desc p.name
      · rw [if_pos hc]
        cases hf : p.fixed_ips with
        | nil => exact absurd hf (hfixed p (List.mem_cons_self _ _))
        | cons f fs =>
            exact ih _ (fun q hq => hfixed q (List.mem_cons_of_mem _ hq))
      · rw [if_neg hc]
        exact ih _ (fun q hq => hfixed q (List.mem_cons_of_mem _ hq))

theorem collectPorts_lookup_ne (m : List (String × String)) (ps : List PortRec)
    (desc d : Desc) (hok : collectPorts m ps desc = Except.ok d) (k : String)
    (h : ∀ p ∈ ps, p.name ≠ k) :
    dictLookup d k = dictLookup desc k := by
  induction ps generalizing desc with
  | nil =>
      simp only [collectPorts] at hok
      injection hok with hok
      rw [hok]
  | cons p ps ih =>
      simp only [collectPorts] at hok
      by_cases hc : (p.name ≠ "") ∧ dictHasKey desc p.name
      · rw [if_pos hc] at hok
        cases hf : p.fixed_ips with
        | nil =>
            rw [hf] at hok
            cases hok
        | cons f fs =>
            rw [hf] at hok
            have htail := ih _ hok (fun q hq => h q (List.mem_cons_of_mem _ hq))
            rw [htail]
            exact dictLookup_updKey_ne desc p.name k _
              (fun hcc => h p (List.mem_cons_self _ _) hcc.symm)
      · rw [if_neg hc] at hok
        exact ih _ hok (fun q hq => h q (List.mem_cons_of_mem _ hq))

theorem collectPorts_lookup_found (m : List (String × String)) (ps : List PortRec)
    (desc d : Desc) (hok : collectPorts m ps desc = Except.ok d)
    (hnodup : (ps.map PortRec.name).Nodup)
    (hnames : ∀ p ∈ ps, p.name ≠ "")
    (p : PortRec) (hp : p ∈ ps) (e : DescEntry)
    (he : dictLookup desc p.name = some e)
    (f : FixedIp) (fs : List FixedIp) (hf : p.fixed_ips = f :: fs) :
    dictLookup d p.name = some (portUpdate e f m) := by
  induction ps generalizing desc with
  | nil => cases hp
  | cons p0 ps ih =>
      simp only [collectPorts] at hok
      have hhead : p0.name ∉ ps.map PortRec.name := (List.nodup_cons.mp hnodup).1
      rcases List.mem_cons.mp hp with h0 | hmem
      · subst h0
        have hc : (p.name ≠ "") ∧ dictHasKey desc p.name :=
          ⟨hnames p (List.mem_cons_self _ _),
           (dictHasKey_iff_lookup desc p.name).mpr ⟨e, he⟩⟩
        rw [if_pos hc, hf] at hok
        have hnot : ∀ q ∈ ps, q.name ≠ p.name := by
          intro q hq hcc
          exact hhead (hcc ▸ List.mem_map_of_mem PortRec.name hq)
        rw [collectPorts_lookup_ne m ps _ d hok p.name hnot]
        exact dictLookup_updKey_self desc p.name _ e he
      · have hne : p0.name ≠ p.name := by
          intro hcc
          exact hhead (hcc ▸ List.mem_map_of_mem PortRec.name hmem)
        by_cases hc : (p0.name ≠ "") ∧ dictHasKey desc p0.name
        · rw [if_pos hc] at hok
          cases hf0 : p0.fixed_ips with
          | nil =>
              rw [hf0] at hok
              cases hok
          | cons f0 fs0 =>
              rw [hf0] at hok
              have he' : dictLookup (updKey desc p0.name
                  (fun e0 => portUpdate e0 f0 m)) p.name = some e := by
                rw [dictLookup_updKey_ne desc p0.name p.name _
                  (fun hcc => hne hcc.symm)]
                exact he
              exact ih _ hok (List.nodup_cons.mp hnodup).2
                (fun q hq => hnames q (List.mem_cons_of_mem _ hq)) hmem he'
        · rw [if_neg hc] at hok
          exact ih _ hok (List.nodup_cons.mp hnodup).2
            (fun q hq => hnames q (List.mem_cons_of_mem _ hq)) hmem he

theorem dictHasKey_insert (d : List (String × String)) (k k' : String) (v : String) :
    dictHasKey (dictInsert d k v) k' = true ↔ (k' = k ∨ dictHasKey d k' = true) := by
  by_cases hk : k' = k
  · subst hk
    constructor
    · intro _
      exact Or.inl rfl
    · intro _
      rw [dictHasKey_iff_lookup]
      exact ⟨v, dictLookup_insert_self d k' v⟩
  · rw [dictHasKey_iff_lookup]
    constructor
    · rintro ⟨w, hw⟩
      rw [dictLookup_insert_ne d k k' v hk] at hw
      exact Or.inr ((dictHasKey_iff_lookup d k').mpr ⟨w, hw⟩)
    · rintro (hc | hc)
      · exact absurd hc hk
      · obtain ⟨w, hw⟩ := (dictHasKey_iff_lookup d k').mp hc
        exact ⟨w, by rw [dictLookup_insert_ne d k k' v hk]; exact hw⟩

theorem build_ip_map_go (fips : List FloatingIpRec) (m : List (String × String))
    (a : String) :
    dictHasKey (fips.foldl ipMapStep m) a = true ↔
      (dictHasKey m a = true ∨
        ∃ f ∈ fips, f.fixed_ip_address = some a ∧ a ≠ "") := by
  induction fips generalizing m with
  | nil => simp
  | cons f fips ih =>
      rw [List.foldl_cons, ih]
      cases hfix : f.fixed_ip_address with
      | none =>
          simp only [ipMapStep, hfix, List.mem_cons]
          constructor
          · rintro (hm | hex)
            · exact Or.inl hm
            · obtain ⟨g, hg, hga⟩ := hex
              exact Or.inr ⟨g, Or.inr hg, hga⟩
          · rintro (hm | ⟨g, hg | hg, hga⟩)
            · exact Or.inl hm
            · rw [hg, hfix] at hga
              cases hga.1
            · exact Or.inr ⟨g, hg, hga⟩
      | some s =>
          by_cases hs : s = ""
          · subst hs
            simp only [ipMapStep, hfix, if_pos rfl, List.mem_cons]
            constructor
            · rintro (hm | hex)
              · exact Or.inl hm
              · obtain ⟨g, hg, hga⟩ := hex
                exact Or.inr ⟨g, Or.inr hg, hga⟩
            · rintro (hm | ⟨g, hg | hg, hga⟩)
              · exact Or.inl hm
              · rw [hg, hfix] at hga
                have : a = "" := by
                  injection hga.1 with h1
                  exact h1.symm
                exact absurd this hga.2
              · exact Or.inr ⟨g, hg, hga⟩
          · simp only [ipMapStep, hfix, if_neg hs, List.mem_cons]
            constructor
            · rintro (hm | hex)
              · rcases (dictHasKey_insert m s a f.floating_ip_address).mp hm with
                  has | hm'
                · refine Or.inr ⟨f, Or.inl rfl, by rw [hfix, has], ?_⟩
                  rw [has]
                  exact hs
                · exact Or.inl hm'
              · obtain ⟨g, hg, hga⟩ := hex
                exact Or.inr ⟨g, Or.inr hg, hga⟩
            · rintro (hm | ⟨g, hg | hg, hga⟩)
              · exact Or.inl ((dictHasKey_insert m s a f.floating_ip_address).mpr
                  (Or.inr hm))
              · rw [hg, hfix] at hga
                have has : a = s := by
                  injection hga.1 with h1
                  exact h1.symm
                exact Or.inl ((dictHasKey_insert m s a f.floating_ip_address).mpr
                  (Or.inl has))
              · exact Or.inr ⟨g, hg, hga⟩

theorem portUpdate_fields (e : DescEntry) (f : FixedIp)
    (m : List (String × String)) (he : e.floating_ip = none) :
    (portUpdate e f m).subnet = some f.subnet_id ∧
    (portUpdate e f m).ip_address = some f.ip_address ∧
    ((portUpdate e f m).floating_ip.isSome = true ↔
      dictHasKey m f.ip_address = true) := by
  unfold portUpdate
  cases hm : dictLookup m f.ip_address with
  | none =>
      refine ⟨rfl, rfl, ?_⟩
      rw [dictHasKey_iff_lookup]
      simp [he, hm]
  | some fl =>
      refine ⟨rfl, rfl, ?_⟩
      rw [dictHasKey_iff_lookup]
      simp [hm]

/-- C8: after _collect_network_info, the description entry of every listed
port whose name is a key of the description carries the port subnet id
and private IP address, and carries a floating_ip field exactly when that
private IP is a key of the map built from the floating IPs bound to a
fixed address; entries matching no listed port are unchanged. -/
theorem collect_network_info_spec (env : NeutronEnv) (stack_desc : Desc)
    (hnodup : (env.ports.map PortRec.name).Nodup)
    (hfixed : ∀ p ∈ env.ports, p.fixed_ips ≠ [])
    (hnames : ∀ p ∈ env.ports, p.name ≠ "")
    (hclean : ∀ q ∈ stack_desc, (Prod.snd q).floating_ip = none) :
    ∃ d, _collect_network_info env stack_desc = Except.ok d ∧
      (∀ p ∈ env.ports, ∀ e, dictLookup stack_desc p.name = some e →
        ∀ f fs, p.fixed_ips = f :: fs →
          ∃ e', dictLookup d p.name = some e' ∧
            e'.subnet = some f.subnet_id ∧
            e'.ip_address = some f.ip_address ∧
            (e'.floating_ip.isSome = true ↔
              dictHasKey (build_ip_map env.floatingips) f.ip_address = true)) ∧
      (∀ a : String, dictHasKey (build_ip_map env.floatingips) a = true ↔
        ∃ fl ∈ env.floatingips, fl.fixed_ip_address = some a ∧ a ≠ "") ∧
      (∀ k : String, (∀ p ∈ env.ports, p.name ≠ k) →
        dictLookup d k = dictLookup stack_desc k) := by
  obtain ⟨d, hd⟩ :=
    collectPorts_ok (build_ip_map env.floatingips) env.ports stack_desc hfixed
  refine ⟨d, hd, ?_, ?_, ?_⟩
  · intro p hp e he f fs hf
    have hlook := collectPorts_lookup_found (build_ip_map env.floatingips)
      env.ports stack_desc d hd hnodup hnames p hp e he f fs hf
    have hefl : e.floating_ip = none :=
      hclean (p.name, e) (mem_of_dictLookup stack_desc p.name e he)
    obtain ⟨h1, h2, h3⟩ :=
      portUpdate_fields e f (build_ip_map env.floatingips) hefl
    exact ⟨portUpdate e f (build_ip_map env.floatingips), hlook, h1, h2, h3⟩
  · intro a
    unfold build_ip_map
    rw [build_ip_map_go env.floatingips [] a]
    simp [dictHasKey]
  · intro k hk
    exact collectPorts_lookup_ne (build_ip_map env.floatingips)
      env.ports stack_desc d hd k hk

/-- Witness for collect_network_info_spec: one port matching one
description entry, its private IP bound to a floating IP. -/
theorem collect_network_info_spec_witness :
    ∃ d, _collect_network_info nenvW descP = Except.ok d ∧
      (∀ p ∈ nenvW.ports, ∀ e, dictLookup descP p.name = some e →
        ∀ f fs, p.fixed_ips = f :: fs →
          ∃ e', dictLookup d p.name = some e' ∧
            e'.subnet = some f.subnet_id ∧
            e'.ip_address = some f.ip_address ∧
            (e'.floating_ip.isSome = true ↔
              dictHasKey (build_ip_map nenvW.floatingips) f.ip_address = true)) ∧
      (∀ a : String, dictHasKey (build_ip_map nenvW.floatingips) a = true ↔
        ∃ fl ∈ nenvW.floatingips, fl.fixed_ip_address = some a ∧ a ≠ "") ∧
      (∀ k : String, (∀ p ∈ nenvW.ports, p.name ≠ k) →
        dictLookup d k = dictLookup descP k) :=
  collect_network_info_spec nenvW descP (by decide) (by decide) (by decide)
    (by decide)

theorem delete_calls_foldl (rs : List ResourceRec) (acc : List ApiCall) :
    rs.foldl
      (fun calls r =>
        if r.resource_type == "OS::Neutron::FloatingIP" then
          calls ++ [ApiCall.update_floatingip r.physical_resource_id]
        else calls) acc =
      acc ++ ((rs.filter (fun r =>
        r.resource_type == "OS::Neutron::FloatingIP")).map
        (fun r => ApiCall.update_floatingip r.physical_resource_id)) := by
  induction rs generalizing acc with
  | nil => simp
  | cons r rs ih =>
      rw [List.foldl_cons, List.filter_cons]
      by_cases hr : r.resource_type = "OS::Neutron::FloatingIP"
      · have hb : (r.resource_type == "OS::Neutron::FloatingIP") = true :=
          beq_iff_eq.mpr hr
        rw [if_pos hb, if_pos hb, ih, List.map_cons, List.append_assoc]
        rfl
      · have hb : (r.resource_type == "OS::Neutron::FloatingIP") = false := by
          simp [hr]
        rw [if_neg (by simp [hb]), if_neg (by simp [hb]), ih]

theorem filter_delete_map_update (L : List ResourceRec) :
    ((L.map (fun r => ApiCall.update_floatingip r.physical_resource_id)).filter
      isDeleteCall) = [] := by
  induction L with
  | nil => rfl
  | cons r L ih => simp [List.filter_cons, isDeleteCall, ih]

theorem filter_update_map_update (L : List ResourceRec) :
    ((L.map (fun r => ApiCall.update_floatingip r.physical_resource_id)).filter
      isUpdateCall) =
      L.map (fun r => ApiCall.update_floatingip r.physical_resource_id) := by
  induction L with
  | nil => rfl
  | cons r L ih => simp [List.filter_cons, isUpdateCall, ih]

/-- C9: teardown issues exactly one floating-IP disassociation call per
floating-IP resource in the listing (in listing order), and every
disassociation precedes the single stack-delete call, wherever the
floating IPs appear in the listing. -/
theorem delete_stack_disassociates_before_delete (stack_id : String)
    (resources : List ResourceRec) :
    _delete_stack stack_id resources =
      ((resources.filter (fun r =>
        r.resource_type == "OS::Neutron::FloatingIP")).map
        (fun r => ApiCall.update_floatingip r.physical_resource_id))
      ++ [ApiCall.delete stack_id] ∧
    (_delete_stack stack_id resources).filter isDeleteCall =
      [ApiCall.delete stack_id] ∧
    ((_delete_stack stack_id resources).filter isUpdateCall).length =
      (resources.filter (fun r =>
        r.resource_type == "OS::Neutron::FloatingIP")).length := by
  have hmain : _delete_stack stack_id resources =
      ((resources.filter (fun r =>
        r.resource_type == "OS::Neutron::FloatingIP")).map
        (fun r => ApiCall.update_floatingip r.physical_resource_id))
      ++ [ApiCall.delete stack_id] := by
    unfold _delete_stack
    rw [delete_calls_foldl]
    rw [List.nil_append]
  refine ⟨hmain, ?_, ?_⟩
  · rw [hmain, List.filter_append, filter_delete_map_update]
    simp [List.filter_cons, isDeleteCall]
  · rw [hmain, List.filter_append, filter_update_map_update]
    simp [List.filter_cons, isUpdateCall]

/-- C1 (code bug): _create_instance_plan raises NameError for every
positive instance count, because _create_instance evaluates the undefined
name data_networks before returning; only the zero-instance call returns,
with an empty plan instead of the claimed per-instance resources. -/
theorem create_instance_plan_raises_name_error (cfg : Config)
    (cluster_uuid image size sec_group_name ctype : String) :
    _create_instance_plan cfg cluster_uuid 1 image size sec_group_name ctype =
      Except.error (PyErr.nameError "data_networks") ∧
    _create_instance_plan cfg cluster_uuid 0 image size sec_group_name ctype =
      Except.ok ({ resources := [], outputs := [] }, []) :=
  ⟨rfl, rfl⟩

/-- C10 (code bug): _collect_subnet_info only logs the subnet listing and
stores the all-None subnet value, never the listed subnet's id, cidr and
gateway. -/
theorem collect_subnet_info_stores_none (subnets : List SubnetRec) :
    _collect_subnet_info subnets =
      { id := none, cidr := none, gateway := none } ∧
    _collect_subnet_info [⟨"subnet-1", "10.0.0.0/24", "10.0.0.1"⟩] ≠
      { id := some "subnet-1", cidr := some "10.0.0.0/24",
        gateway := some "10.0.0.1" } :=
  ⟨rfl, by decide⟩

/-- C2: alloc never returns a non-empty container list: every successful
return is the empty list, and whenever provisioning yields a truthy
resource description the launch block raises AttributeError on the
undefined attribute _get_servers before reaching its loop. -/
theorem alloc_never_launches_containers (cfg : Config) (henv : HeatEnv)
    (nenv : NeutronEnv) (cluster_uuid : String)
    (container_info : List ContainerInfo) (ctype : String) (proxy : Bool) :
    (∀ cs, alloc cfg henv nenv cluster_uuid container_info ctype proxy =
        Res.ok cs → cs = []) ∧
    (∀ fip ports d,
      alloc_policy container_info ctype proxy = Except.ok (fip, ports) →
      _create_app_stack cfg henv nenv cluster_uuid container_info.length ports
        fip ctype = Res.ok (some d) →
      d.isEmpty = false →
      alloc cfg henv nenv cluster_uuid container_info ctype proxy =
        Res.err (PyErr.attributeError "_get_servers")) := by
  constructor
  · intro cs hok
    unfold alloc at hok
    split at hok
    · cases hok
    · split at hok
      · cases hok
      · cases hok
      · injection hok with hok
        exact hok.symm
      · split at hok
        · injection hok with hok
          exact hok.symm
        · cases hok
  · intro fip ports d hp hs hne
    simp only [alloc, hp]
    rw [hs]
    show (if d.isEmpty = true then Res.ok [] else
      Res.err (PyErr.attributeError "_get_servers")) =
      Res.err (PyErr.attributeError "_get_servers")
    rw [if_neg (by simp [hne])]

/-- Witness for alloc_never_launches_containers: a failing stack returns
the empty list; a completing stack raises AttributeError. -/
theorem alloc_never_launches_containers_witness :
    ([] : List Container) = [] ∧
    alloc cfg0 henvC nenv0 "c" [] "connector" true =
      Res.err (PyErr.attributeError "_get_servers") :=
  ⟨(alloc_never_launches_containers cfg0 henvF nenv0 "c" [] "connector" true).1
      [] (by decide),
   (alloc_never_launches_containers cfg0 henvC nenv0 "c" [] "connector" true).2
      true [] descC rfl (by decide) rfl⟩

/-- C3 counterexample: with an empty container list, a non-connector ctype
and proxy false, alloc raises IndexError evaluating container_info[0] and
never issues the floating-IP request the claim asserts. -/
theorem alloc_empty_backend_no_request_cex :
    alloc cfg0 henvC nenv0 "c" [] "backend" false = Res.err PyErr.indexError := by
  decide

/-- C3 (amended): ctype connector always derives assign_floating_ip true;
any other ctype with a non-empty container list derives it as the negation
of proxy; any other ctype with an empty container list raises IndexError
before requesting anything. -/
theorem alloc_floating_ip_policy (container_info : List ContainerInfo)
    (ctype : String) (proxy : Bool) :
    (ctype = "connector" →
      ∃ ports, alloc_policy container_info ctype proxy =
        Except.ok (true, ports)) ∧
    (ctype ≠ "connector" → container_info ≠ [] →
      ∃ ports, alloc_policy container_info ctype proxy =
        Except.ok ((if proxy then false else true), ports)) ∧
    (ctype ≠ "connector" → container_info = [] →
      alloc_policy container_info ctype proxy =
        Except.error PyErr.indexError) := by
  refine ⟨?_, ?_, ?_⟩
  · intro hc
    subst hc
    exact ⟨_, rfl⟩
  · intro hc hne
    cases container_info with
    | nil => exact absurd rfl hne
    | cons c0 rest =>
        refine ⟨c0.exposed.map exposedRule, ?_⟩
        unfold alloc_policy
        rw [if_neg hc]
  · intro hc hnil
    subst hnil
    unfold alloc_policy
    rw [if_neg hc]

/-- Witness for alloc_floating_ip_policy at connector, backend and the
empty-list backend case. -/
theorem alloc_floating_ip_policy_witness :
    (∃ ports, alloc_policy [] "connector" false = Except.ok (true, ports)) ∧
    (∃ ports, alloc_policy [⟨[], ["22"]⟩] "backend" true =
      Except.ok (false, ports)) ∧
    alloc_policy [] "backend" true = Except.error PyErr.indexError :=
  ⟨(alloc_floating_ip_policy [] "connector" false).1 rfl,
   (alloc_floating_ip_policy [⟨[], ["22"]⟩] "backend" true).2.1
      (by decide) (by decide),
   (alloc_floating_ip_policy [] "backend" true).2.2 (by decide) rfl⟩

/-- C4: the non-connector branch expands an exposed entry a-b to (a, b)
and a single port p to (p, p); the connector branch maps host:container
to (container, container), ignoring the host port, and a lone port p to
(p, p); and alloc's derivation applies these rules to the first
container's exposed list, respectively to every container's port list. -/
theorem alloc_port_rule_expansion :
    (∀ a b : String, pySplit (a ++ "-" ++ b) '-' = [a, b] →
      exposedRule (a ++ "-" ++ b) = (a, b)) ∧
    (∀ p : String, pySplit p '-' = [p] → exposedRule p = (p, p)) ∧
    exposedRule "8080-8090" = ("8080", "8090") ∧
    exposedRule "22" = ("22", "22") ∧
    (∀ hp cp : String, pySplit (hp ++ ":" ++ cp) ':' = [hp, cp] →
      connectorRule (hp ++ ":" ++ cp) = (cp, cp)) ∧
    (∀ p : String, pySplit p ':' = [p] → connectorRule p = (p, p)) ∧
    connectorRule "8080:80" = ("80", "80") ∧
    connectorRule "80" = ("80", "80") ∧
    (∀ c0 rest ctype proxy, ctype ≠ "connector" →
      ∃ fip, alloc_policy (c0 :: rest) ctype proxy =
        Except.ok (fip, c0.exposed.map exposedRule)) ∧
    (∀ info proxy, ∃ fip, alloc_policy info "connector" proxy =
      Except.ok (fip, info.flatMap (fun c => c.ports.map connectorRule))) := by
  refine ⟨?_, ?_, by decide, by decide, ?_, ?_, by decide, by decide, ?_, ?_⟩
  · intro a b h
    unfold exposedRule
    rw [h]
  · intro p h
    unfold exposedRule
    rw [h]
  · intro hp cp h
    unfold connectorRule
    rw [h]
  · intro p h
    unfold connectorRule
    rw [h]
  · intro c0 rest ctype proxy hc
    refine ⟨if proxy then false else true, ?_⟩
    unfold alloc_policy
    rw [if_neg hc]
  · intro info proxy
    exact ⟨true, rfl⟩

/-- Witness for alloc_port_rule_expansion at the range and the
host:container mapping of the claim. -/
theorem alloc_port_rule_expansion_witness :
    exposedRule ("8080" ++ "-" ++ "8090") = ("8080", "8090") ∧
    connectorRule ("8080" ++ ":" ++ "80") = ("80", "80") :=
  ⟨alloc_port_rule_expansion.1 "8080" "8090" (by decide),
   alloc_port_rule_expansion.2.2.2.2.1 "8080" "80" (by decide)⟩

/-- C5 counterexample: for the connector port mapping 8080:80 the code
derives the security pair ("80", "80") from the container-side port,
while the published (host-facing) port of the entry is 8080, so the
claimed pair ("8080", "8080") differs from the derived one. -/
theorem connector_published_port_cex :
    alloc_policy [⟨["8080:80"], []⟩] "connector" false =
      Except.ok (true, [("80", "80")]) ∧
    publishedRule "8080:80" = ("8080", "8080") ∧
    (("80", "80") : String × String) ≠ ("8080", "8080") :=
  ⟨rfl, rfl, by decide⟩

/-- C5 (amended): for ctype connector the derived security pairs are the
container-side port of each port-mapping entry (the host-facing port is
ignored), falling back to the lone port when the entry has no
host:container split. -/
theorem connector_ports_use_container_side :
    (∀ hp cp : String, pySplit (hp ++ ":" ++ cp) ':' = [hp, cp] →
      connectorRule (hp ++ ":" ++ cp) = (cp, cp)) ∧
    (∀ p : String, pySplit p ':' = [p] → connectorRule p = (p, p)) ∧
    (∀ info proxy, alloc_policy info "connector" proxy =
      Except.ok (true, info.flatMap (fun c => c.ports.map connectorRule))) := by
  refine ⟨?_, ?_, fun info proxy => rfl⟩
  · intro hp cp h
    unfold connectorRule
    rw [h]
  · intro p h
    unfold connectorRule
    rw [h]

/-- Witness for connector_ports_use_container_side at an explicit
host:container split. -/
theorem connector_ports_use_container_side_witness :
    connectorRule ("443" ++ ":" ++ "8443") = ("8443", "8443") :=
  connector_ports_use_container_side.1 "443" "8443" (by decide)

end Ferry
